import Mathlib

/-!
Formal model of `horovod/common/ops/collective_operations.cc`.

The collective operations (Allreduce staging, Allgather layout, Broadcast,
Error) are shallowly embedded as pure Lean functions.  Machine integers
(`int`, `int64_t`, `unsigned int` in the source) are modelled as unbounded
`Int`: the claims under study are layout recurrences and sums, and in every
execution free of C++ signed-overflow undefined behaviour the machine values
coincide with the mathematical ones (the `unsigned int rank_displacement`
only ever holds values that were also stored in `int displcmnts[rc]`, so no
wrap-around occurs in a UB-free run).

Stateful behaviour (timeline activities, output allocation, the virtual
transport calls `DoAllgather` / `DoBroadcast`) is modelled with an explicit
event trace.  The transport backend is a virtual method whose outcome is an
input of the model (`transport_status`); faithfully to the source, `Execute`
invokes it as a statement and never consults that outcome.
-/

/-- Modelled from the spec: the tensor dtype enumeration (`common.h`, not in
the provided sources).  Only the arities needed by the scenarios appear. -/
inductive DataType
  | UINT8
  | INT8
  | INT32
  | INT64
  | FLOAT32
  | FLOAT64
deriving DecidableEq, Repr, Inhabited

/-- Modelled from the spec: per-dtype wire element size in bytes
(`GetElementSize`, defined outside the provided sources; the spec's scenarios
use a 4-byte dtype). -/
def GetElementSize : DataType → Int
  | DataType.UINT8 => 1
  | DataType.INT8 => 1
  | DataType.INT32 => 4
  | DataType.INT64 => 8
  | DataType.FLOAT32 => 4
  | DataType.FLOAT64 => 8

/-- Modelled from the spec: the status-type enumeration of `Status`
(`status.h`, not in the provided sources). -/
inductive StatusType
  | OK
  | UNKNOWN_ERROR
  | PRECONDITION_ERROR
  | ABORTED
deriving DecidableEq, Repr, Inhabited

/-- Modelled from the spec: outcome of one operation invocation - success or
a typed failure carrying a human-readable message. -/
structure Status where
  type : StatusType
  reason : String
deriving DecidableEq, Repr, Inhabited

/-- `Status::OK()`. -/
def Status.OK : Status := ⟨StatusType.OK, ""⟩

/-- `Status::PreconditionError(msg)`. -/
def Status.PreconditionError (msg : String) : Status :=
  ⟨StatusType.PRECONDITION_ERROR, msg⟩

/-- `status.ok()`. -/
def Status.ok (s : Status) : Bool :=
  match s.type with
  | StatusType.OK => true
  | _ => false

/-- Modelled from the spec: a tensor shape is the ordered list of its
dimension extents (`TensorShape` of `common.h`, not in the provided
sources). -/
structure TensorShape where
  dims : List Int
deriving DecidableEq, Repr, Inhabited

/-- Modelled from the spec: `TensorShape::num_elements()` is the product of
the dimension extents (the slice shape's "element count"). -/
def TensorShape.num_elements (s : TensorShape) : Int :=
  s.dims.foldl (fun a d => a * d) 1

/-- `TensorShape::AddDim(d)`: append one dimension. -/
def TensorShape.AddDim (s : TensorShape) (d : Int) : TensorShape :=
  ⟨s.dims ++ [d]⟩

/-- `TensorShape::AppendShape(t)`: append all of `t`'s dimensions. -/
def TensorShape.AppendShape (s t : TensorShape) : TensorShape :=
  ⟨s.dims ++ t.dims⟩

/-- Modelled from the spec: a tensor is characterised here by its shape and
dtype; its byte size (`Tensor::size()`) is element count times element
size (the spec's scenario: 10-element tensor of a 4-byte dtype is 40
bytes). -/
structure Tensor where
  shape : TensorShape
  dtype : DataType
deriving DecidableEq, Repr, Inhabited

/-- `tensor->size()` in bytes. -/
def Tensor.size (t : Tensor) : Int :=
  t.shape.num_elements * GetElementSize t.dtype

/-- One participant's request (`TensorTableEntry`): input tensor, on-demand
output, broadcast root rank, and the framework context's `AllocateOutput`
behaviour (modelled as the status the context returns for a requested
shape; on success the output becomes a tensor of exactly that shape, per
the spec's `AllocateOutput(shape, framework_context)` interface). -/
structure TensorTableEntry where
  tensor : Tensor
  output : Option Tensor
  root_rank : Int
  allocate_output : TensorShape → Status

instance : Inhabited TensorTableEntry :=
  ⟨{ tensor := default, output := none, root_rank := 0,
     allocate_output := fun _ => Status.OK }⟩

/-- The Negotiated Response: flattened per-entry-per-rank leading-dimension
extents (`tensor_sizes[ec * size + rc]`) and an optional upstream error
message. -/
structure Response where
  tensor_sizes : List Int
  error_message : String

/-- Shared process state: rank and group size (`global_state_->rank`,
`global_state_->size`). -/
structure HorovodGlobalState where
  size : Nat
  rank : Int

/-- Which data pointer is handed to the transport primitive
(`e.tensor->data()` vs `e.output->data()`). -/
inductive DataRef
  | tensorData
  | outputData
deriving DecidableEq, Repr

/-- Observable side effects of one `Execute` run, in program order. -/
inductive Event
  | activityStartAll (label : String)
  | activityEndAll
  | allocateOutput (ec : Nat) (shape : TensorShape) (succeeded : Bool)
  | doAllgather (recvcounts displcmnts : List Int)
      (entry_component_offsets entry_component_sizes : List (List Int))
      (total_size element_size : Int) (reported : Status)
  | doBroadcast (buffer : DataRef) (count : Int) (dtype : DataType)
      (root : Int) (reported : Status)
deriving DecidableEq, Repr

/-- Is this event the Allgather transport call? -/
def Event.isDoAllgather : Event → Bool
  | Event.doAllgather _ _ _ _ _ _ _ => true
  | _ => false

/-- Result of one `Execute`: returned status, the entry batch after the call
(outputs may have been allocated), and the event trace. -/
structure ExecResult where
  status : Status
  entries : List TensorTableEntry
  events : List Event

/-- The timeline label used while allocating Allgather outputs. -/
def ALLOCATE_OUTPUT : String := "ALLOCATE_OUTPUT"

/-! ## Allreduce staging (`AllreduceOp`) -/

/-- `AllreduceOp::NumElements` (lines 27-33): total element count of the
batch. -/
def AllreduceOp.NumElements (entries : List TensorTableEntry) : Int :=
  entries.foldl (fun acc e => acc + e.tensor.shape.num_elements) 0

/-- The copy loop of `AllreduceOp::MemcpyInFusionBuffer` (lines 43-50):
starting at byte offset `offset`, each entry is memcpy'd at the running
offset, which then advances by `e.tensor->size()`.  Returns the list of
`(offset, byte count)` copies performed and the final offset (which the
source stores into `buffer_len`). -/
def memcpyInLoop : List TensorTableEntry → Int → List (Int × Int) × Int
  | [], offset => ([], offset)
  | e :: rest, offset =>
    let r := memcpyInLoop rest (offset + e.tensor.size)
    ((offset, e.tensor.size) :: r.1, r.2)

/-- `AllreduceOp::MemcpyInFusionBuffer` (lines 35-54): the copies performed
into the fusion buffer and the resulting `buffer_len`. -/
def AllreduceOp.MemcpyInFusionBuffer (entries : List TensorTableEntry) :
    List (Int × Int) × Int :=
  memcpyInLoop entries 0

/-- The copy loop of `AllreduceOp::MemcpyOutFusionBuffer` (lines 57-62):
identical offset arithmetic, copies going from the buffer back to each
entry's output. -/
def memcpyOutLoop : List TensorTableEntry → Int → List (Int × Int)
  | [], _ => []
  | e :: rest, offset =>
    (offset, e.tensor.size) :: memcpyOutLoop rest (offset + e.tensor.size)

/-- `AllreduceOp::MemcpyOutFusionBuffer` (lines 56-63). -/
def AllreduceOp.MemcpyOutFusionBuffer (entries : List TensorTableEntry) :
    List (Int × Int) :=
  memcpyOutLoop entries 0

/-! ## Allgather layout (`AllgatherOp::Execute`, lines 80-167) -/

/-- Lines 106-109: shape of the tensor sliced by its first dimension
(`single_slice_shape`). -/
def single_slice_shape (s : TensorShape) : TensorShape :=
  ⟨s.dims.drop 1⟩

/-- Lines 116-120: the component size of entry `ec` at rank `rc` - the
rank's contributed leading-dimension extent `tensor_sizes[ec * G + rc]`
times the entry's slice-shape element count
(`entry_component_sizes[ec][rc]`). -/
def entry_component_sizes (G : Nat) (tensor_sizes : List Int)
    (entries : List TensorTableEntry) (ec rc : Nat) : Int :=
  tensor_sizes.getD (ec * G + rc) 0 *
    (single_slice_shape (entries.getD ec default).tensor.shape).num_elements

/-- Line 118: the value of the cell `recvcounts[rc]` after the first `n`
entries of the batch have been accumulated (`recvcounts[rc] +=
component_size * single_slice_shape.num_elements()`). -/
def recvcountsAfter (G : Nat) (tensor_sizes : List Int)
    (entries : List TensorTableEntry) : Nat → Nat → Int
  | 0, _ => 0
  | n + 1, rc =>
    recvcountsAfter G tensor_sizes entries n rc +
      entry_component_sizes G tensor_sizes entries n rc

/-- The final `recvcounts[rc]`, after the whole entry loop. -/
def recvcounts (G : Nat) (tensor_sizes : List Int)
    (entries : List TensorTableEntry) (rc : Nat) : Int :=
  recvcountsAfter G tensor_sizes entries entries.length rc

/-- Lines 113-117: `total_entry_dimension_size` for entry `ec` - the sum of
the first `n` ranks' extents; the loop runs `n` up to `G`. -/
def total_entry_dimension_size (G : Nat) (tensor_sizes : List Int)
    (ec : Nat) : Nat → Int
  | 0 => 0
  | n + 1 =>
    total_entry_dimension_size G tensor_sizes ec n +
      tensor_sizes.getD (ec * G + n) 0

/-- Lines 123-127: the output shape allocated for an entry -
`(sum of first dimension over ranks) x (slice shape)`. -/
def allgatherOutputShape (G : Nat) (tensor_sizes : List Int)
    (e : TensorTableEntry) (ec : Nat) : TensorShape :=
  ((⟨[]⟩ : TensorShape).AddDim
      (total_entry_dimension_size G tensor_sizes ec G)).AppendShape
    (single_slice_shape e.tensor.shape)

/-- Lines 136-142: `displcmnts[rc]`, defined by `displcmnts[0] = 0` and
`displcmnts[rc] = displcmnts[rc-1] + recvcounts[rc-1]`. -/
def displcmnts (G : Nat) (tensor_sizes : List Int)
    (entries : List TensorTableEntry) : Nat → Int
  | 0 => 0
  | rc + 1 =>
    displcmnts G tensor_sizes entries rc +
      recvcounts G tensor_sizes entries rc

/-- Lines 144-155: the value of `rank_displacement` at the top of iteration
`rc` of the offset loop (starts at 0, advances by `recvcounts[rc]` at the
end of each iteration).  `unsigned int` in the source; see the header
comment on integer modelling. -/
def rank_displacement (G : Nat) (tensor_sizes : List Int)
    (entries : List TensorTableEntry) : Nat → Int
  | 0 => 0
  | rc + 1 =>
    rank_displacement G tensor_sizes entries rc +
      recvcounts G tensor_sizes entries rc

/-- Lines 146-154: `entry_component_offsets[ec][rc]` - entry 0 starts at the
rank's running displacement; entry `ec+1` starts where entry `ec`'s
component ends. -/
def entry_component_offsets (G : Nat) (tensor_sizes : List Int)
    (entries : List TensorTableEntry) : Nat → Nat → Int
  | 0, rc => rank_displacement G tensor_sizes entries rc
  | ec + 1, rc =>
    entry_component_offsets G tensor_sizes entries ec rc +
      entry_component_sizes G tensor_sizes entries ec rc

/-- Lines 159-160: `total_size = displcmnts[size-1] + recvcounts[size-1]`. -/
def total_size (G : Nat) (tensor_sizes : List Int)
    (entries : List TensorTableEntry) : Int :=
  displcmnts G tensor_sizes entries (G - 1) +
    recvcounts G tensor_sizes entries (G - 1)

/-- The `recvcounts` array materialised as a list of length `G`. -/
def recvcountsTable (G : Nat) (tensor_sizes : List Int)
    (entries : List TensorTableEntry) : List Int :=
  (List.range G).map (recvcounts G tensor_sizes entries)

/-- The `displcmnts` array materialised as a list of length `G`. -/
def displcmntsTable (G : Nat) (tensor_sizes : List Int)
    (entries : List TensorTableEntry) : List Int :=
  (List.range G).map (displcmnts G tensor_sizes entries)

/-- The `entry_component_offsets` table materialised. -/
def entry_component_offsets_table (G : Nat) (tensor_sizes : List Int)
    (entries : List TensorTableEntry) : List (List Int) :=
  (List.range entries.length).map (fun ec =>
    (List.range G).map (entry_component_offsets G tensor_sizes entries ec))

/-- The `entry_component_sizes` table materialised. -/
def entry_component_sizes_table (G : Nat) (tensor_sizes : List Int)
    (entries : List TensorTableEntry) : List (List Int) :=
  (List.range entries.length).map (fun ec =>
    (List.range G).map (entry_component_sizes G tensor_sizes entries ec))

/-- The entry with its output freshly allocated to the Allgather output
shape (what a successful `AllocateOutput(output_shape, &e.output)` leaves
behind). -/
def withAllocatedOutput (G : Nat) (tensor_sizes : List Int)
    (e : TensorTableEntry) (ec : Nat) : TensorTableEntry :=
  { e with
    output := some (Tensor.mk (allgatherOutputShape G tensor_sizes e ec)
      e.tensor.dtype) }

/-- Lines 101-133: the per-entry allocation loop.  For each entry (at batch
index `ec`) the output shape is computed and `AllocateOutput` is invoked;
on a failure the loop stops and that status is returned, leaving the
remaining entries untouched.  Returns the (partially) updated entries, the
allocation events in order, and the failure status if any. -/
def allgatherAllocLoop (G : Nat) (tensor_sizes : List Int) :
    List TensorTableEntry → Nat →
    List TensorTableEntry × List Event × Option Status
  | [], _ => ([], [], none)
  | e :: rest, ec =>
    let shape := allgatherOutputShape G tensor_sizes e ec
    let st := e.allocate_output shape
    if st.ok then
      let r := allgatherAllocLoop G tensor_sizes rest (ec + 1)
      (withAllocatedOutput G tensor_sizes e ec :: r.1,
        Event.allocateOutput ec shape true :: r.2.1, r.2.2)
    else
      (e :: rest, [Event.allocateOutput ec shape false], some st)

/-- The output shape `AllocateOutput` is asked for at batch index `ec`. -/
def allocOutputShapeAt (G : Nat) (tensor_sizes : List Int)
    (entries : List TensorTableEntry) (ec : Nat) : TensorShape :=
  allgatherOutputShape G tensor_sizes (entries.getD ec default) ec

/-- The status `AllocateOutput` reports for batch index `ec`. -/
def allocStatusAt (G : Nat) (tensor_sizes : List Int)
    (entries : List TensorTableEntry) (ec : Nat) : Status :=
  (entries.getD ec default).allocate_output
    (allocOutputShapeAt G tensor_sizes entries ec)

/-- `AllgatherOp::Execute` (lines 80-167).  `transport_status` is the
outcome the virtual `DoAllgather` backend would report; the source invokes
`DoAllgather(...)` as a statement, so this outcome is recorded in the trace
but never influences the returned status, which is `Status::OK()`. -/
def AllgatherOp.Execute (g : HorovodGlobalState)
    (entries : List TensorTableEntry) (response : Response)
    (transport_status : Status) : ExecResult :=
  match (allgatherAllocLoop g.size response.tensor_sizes entries 0).2.2 with
  | some st =>
    ⟨st, (allgatherAllocLoop g.size response.tensor_sizes entries 0).1,
      Event.activityStartAll ALLOCATE_OUTPUT ::
        (allgatherAllocLoop g.size response.tensor_sizes entries 0).2.1⟩
  | none =>
    ⟨Status.OK, (allgatherAllocLoop g.size response.tensor_sizes entries 0).1,
      Event.activityStartAll ALLOCATE_OUTPUT ::
        (allgatherAllocLoop g.size response.tensor_sizes entries 0).2.1 ++
        [Event.activityEndAll,
         Event.doAllgather
           (recvcountsTable g.size response.tensor_sizes entries)
           (displcmntsTable g.size response.tensor_sizes entries)
           (entry_component_offsets_table g.size response.tensor_sizes entries)
           (entry_component_sizes_table g.size response.tensor_sizes entries)
           (total_size g.size response.tensor_sizes entries)
           (GetElementSize (entries.headD default).tensor.dtype)
           transport_status]⟩

/-! ## Broadcast (`BroadcastOp`, lines 169-192) -/

/-- Modelled from the spec: opaque autotuning state (`ParameterManager` is
an external collaborator; `BroadcastOp::Enabled` ignores it). -/
inductive ParameterManager
  | mk

/-- `BroadcastOp::Execute` (lines 171-186): on the root rank the transport
buffer is the entry's input data, elsewhere its output data; one
`DoBroadcast` with the element count (an `int` cast of `num_elements()`),
dtype and root rank; returns `Status::OK()` unconditionally (the result of
`DoBroadcast`, if any, is discarded). -/
def BroadcastOp.Execute (g : HorovodGlobalState)
    (entries : List TensorTableEntry) (response : Response)
    (transport_status : Status) : ExecResult :=
  let e := entries.headD default
  let data_ptr :=
    if g.rank = e.root_rank then DataRef.tensorData else DataRef.outputData
  ⟨Status.OK, entries,
    [Event.doBroadcast data_ptr e.tensor.shape.num_elements e.tensor.dtype
      e.root_rank transport_status]⟩

/-- `BroadcastOp::Enabled` (lines 188-192): always true. -/
def BroadcastOp.Enabled (pm : ParameterManager)
    (entries : List TensorTableEntry) (response : Response) : Bool :=
  true

/-! ## Error (`ErrorOp`, lines 194-200) -/

/-- `ErrorOp::Execute` (lines 196-200): immediately returns a
precondition-failure status carrying the response's error message; no
events, no mutation of the batch. -/
def ErrorOp.Execute (entries : List TensorTableEntry) (response : Response) :
    ExecResult :=
  ⟨Status.PreconditionError response.error_message, entries, []⟩

/-! ## Generic recurrence schemes and spec-side "component absent" layout

The three Allgather layout recurrences, abstracted over the component-size
table.  They are used to compare the source layout with the layout in which
one `(entry, rank)` component is absent (claim about zero-extent
contributions). -/

/-- The `recvcounts` accumulation scheme over an abstract component table. -/
def recvFrom (comp : Nat → Nat → Int) : Nat → Nat → Int
  | 0, _ => 0
  | n + 1, rc => recvFrom comp n rc + comp n rc

/-- The running-displacement scheme over abstract per-rank counts. -/
def rdFrom (recv : Nat → Int) : Nat → Int
  | 0 => 0
  | rc + 1 => rdFrom recv rc + recv rc

/-- The offset-table scheme over an abstract component table and abstract
running displacements. -/
def offsetsFrom (comp : Nat → Nat → Int) (rd : Nat → Int) : Nat → Nat → Int
  | 0, rc => rd rc
  | ec + 1, rc => offsetsFrom comp rd ec rc + comp ec rc

/-- Spec-side definition: the component-size table with the `(e0, r0)`
component absent (contributing nothing). -/
def entry_component_sizesAbsent (G : Nat) (tensor_sizes : List Int)
    (entries : List TensorTableEntry) (e0 r0 ec rc : Nat) : Int :=
  if ec = e0 ∧ rc = r0 then 0
  else entry_component_sizes G tensor_sizes entries ec rc

/-- Spec-side definition: `recvcounts` with the `(e0, r0)` component
absent. -/
def recvcountsAbsent (G : Nat) (tensor_sizes : List Int)
    (entries : List TensorTableEntry) (e0 r0 rc : Nat) : Int :=
  recvFrom (entry_component_sizesAbsent G tensor_sizes entries e0 r0)
    entries.length rc

/-- Spec-side definition: `displcmnts` with the `(e0, r0)` component
absent. -/
def displcmntsAbsent (G : Nat) (tensor_sizes : List Int)
    (entries : List TensorTableEntry) (e0 r0 rc : Nat) : Int :=
  rdFrom (recvcountsAbsent G tensor_sizes entries e0 r0) rc

/-- Spec-side definition: the offset table with the `(e0, r0)` component
absent. -/
def entry_component_offsetsAbsent (G : Nat) (tensor_sizes : List Int)
    (entries : List TensorTableEntry) (e0 r0 ec rc : Nat) : Int :=
  offsetsFrom (entry_component_sizesAbsent G tensor_sizes entries e0 r0)
    (rdFrom (recvcountsAbsent G tensor_sizes entries e0 r0)) ec rc

/-! ## Helper lemmas -/

lemma recvFrom_congr {comp comp' : Nat → Nat → Int}
    (h : ∀ ec rc, comp ec rc = comp' ec rc) :
    ∀ n rc, recvFrom comp n rc = recvFrom comp' n rc := by
  intro n
  induction n with
  | zero => intro rc; rfl
  | succ n ih => intro rc; rw [recvFrom, recvFrom, ih, h]

lemma rdFrom_congr {recv recv' : Nat → Int}
    (h : ∀ rc, recv rc = recv' rc) :
    ∀ rc, rdFrom recv rc = rdFrom recv' rc := by
  intro rc
  induction rc with
  | zero => rfl
  | succ rc ih => rw [rdFrom, rdFrom, ih, h]

lemma offsetsFrom_congr {comp comp' : Nat → Nat → Int} {rd rd' : Nat → Int}
    (h : ∀ ec rc, comp ec rc = comp' ec rc) (h2 : ∀ rc, rd rc = rd' rc) :
    ∀ ec rc, offsetsFrom comp rd ec rc = offsetsFrom comp' rd' ec rc := by
  intro ec
  induction ec with
  | zero => intro rc; rw [offsetsFrom, offsetsFrom, h2]
  | succ ec ih => intro rc; rw [offsetsFrom, offsetsFrom, ih, h]

lemma recvcountsAfter_eq_recvFrom (G : Nat) (tensor_sizes : List Int)
    (entries : List TensorTableEntry) (n rc : Nat) :
    recvcountsAfter G tensor_sizes entries n rc =
      recvFrom (entry_component_sizes G tensor_sizes entries) n rc := by
  induction n with
  | zero => rfl
  | succ n ih => rw [recvcountsAfter, recvFrom, ih]

lemma displcmnts_eq_rdFrom (G : Nat) (tensor_sizes : List Int)
    (entries : List TensorTableEntry) (rc : Nat) :
    displcmnts G tensor_sizes entries rc =
      rdFrom (recvcounts G tensor_sizes entries) rc := by
  induction rc with
  | zero => rfl
  | succ rc ih => rw [displcmnts, rdFrom, ih]

lemma rank_displacement_eq_displcmnts (G : Nat) (tensor_sizes : List Int)
    (entries : List TensorTableEntry) (rc : Nat) :
    rank_displacement G tensor_sizes entries rc =
      displcmnts G tensor_sizes entries rc := by
  induction rc with
  | zero => rfl
  | succ rc ih => rw [rank_displacement, displcmnts, ih]

lemma entry_component_offsets_eq_offsetsFrom (G : Nat)
    (tensor_sizes : List Int) (entries : List TensorTableEntry)
    (ec rc : Nat) :
    entry_component_offsets G tensor_sizes entries ec rc =
      offsetsFrom (entry_component_sizes G tensor_sizes entries)
        (rdFrom (recvcounts G tensor_sizes entries)) ec rc := by
  induction ec with
  | zero =>
    rw [entry_component_offsets, offsetsFrom,
      rank_displacement_eq_displcmnts, displcmnts_eq_rdFrom]
  | succ ec ih => rw [entry_component_offsets, offsetsFrom, ih]

lemma recvcountsAfter_eq_sum (G : Nat) (tensor_sizes : List Int)
    (entries : List TensorTableEntry) (n rc : Nat) :
    recvcountsAfter G tensor_sizes entries n rc =
      Finset.sum (Finset.range n)
        (fun ec => entry_component_sizes G tensor_sizes entries ec rc) := by
  induction n with
  | zero => simp [recvcountsAfter]
  | succ n ih => rw [recvcountsAfter, ih, Finset.sum_range_succ]

lemma recvcounts_eq_sum (G : Nat) (tensor_sizes : List Int)
    (entries : List TensorTableEntry) (rc : Nat) :
    recvcounts G tensor_sizes entries rc =
      Finset.sum (Finset.range entries.length)
        (fun ec => entry_component_sizes G tensor_sizes entries ec rc) :=
  recvcountsAfter_eq_sum G tensor_sizes entries entries.length rc

lemma displcmnts_eq_sum (G : Nat) (tensor_sizes : List Int)
    (entries : List TensorTableEntry) (rc : Nat) :
    displcmnts G tensor_sizes entries rc =
      Finset.sum (Finset.range rc)
        (fun r => recvcounts G tensor_sizes entries r) := by
  induction rc with
  | zero => simp [displcmnts]
  | succ rc ih => rw [displcmnts, ih, Finset.sum_range_succ]

lemma memcpyInLoop_snd (es : List TensorTableEntry) : ∀ (off : Int),
    (memcpyInLoop es off).2 = off + (es.map (fun e => e.tensor.size)).sum := by
  induction es with
  | nil => intro off; simp [memcpyInLoop]
  | cons e rest ih =>
    intro off
    simp only [memcpyInLoop, ih, List.map_cons, List.sum_cons]
    ring

lemma memcpyInLoop_getD (es : List TensorTableEntry) : ∀ (off : Int) (i : Nat),
    i < es.length →
    (memcpyInLoop es off).1.getD i (0, 0) =
      (off + ((es.take i).map (fun e => e.tensor.size)).sum,
        (es.getD i default).tensor.size) := by
  induction es with
  | nil => intro off i hi; simp at hi
  | cons e rest ih =>
    intro off i hi
    cases i with
    | zero => simp [memcpyInLoop]
    | succ i =>
      have hi' : i < rest.length := by simpa using hi
      have := ih (off + e.tensor.size) i hi'
      simp only [memcpyInLoop, List.getD_cons_succ, this, List.take_succ_cons,
        List.map_cons, List.sum_cons]
      rw [add_assoc]

lemma memcpyOutLoop_eq_in (es : List TensorTableEntry) : ∀ (off : Int),
    memcpyOutLoop es off = (memcpyInLoop es off).1 := by
  induction es with
  | nil => intro off; rfl
  | cons e rest ih => intro off; simp [memcpyOutLoop, memcpyInLoop, ih]

/-! ## Allocation-loop lemmas -/

lemma allocLoop_events_shape (G : Nat) (ts : List Int)
    (es : List TensorTableEntry) : ∀ (base : Nat) (ev : Event),
    ev ∈ (allgatherAllocLoop G ts es base).2.1 →
    ∃ a b c, ev = Event.allocateOutput a b c := by
  induction es with
  | nil => intro base ev h; simp [allgatherAllocLoop] at h
  | cons e rest ih =>
    intro base ev h
    by_cases h0 : (e.allocate_output (allgatherOutputShape G ts e base)).ok
    · simp only [allgatherAllocLoop, h0, if_true] at h
      rcases List.mem_cons.mp h with h1 | h1
      · exact ⟨base, allgatherOutputShape G ts e base, true, h1⟩
      · exact ih (base + 1) ev h1
    · simp only [allgatherAllocLoop, h0, if_false] at h
      rcases List.mem_cons.mp h with h1 | h1
      · exact ⟨base, allgatherOutputShape G ts e base, false, h1⟩
      · simp at h1

lemma allocLoop_all_ok (G : Nat) (ts : List Int)
    (es : List TensorTableEntry) : ∀ (base : Nat),
    (∀ i, i < es.length →
      ((es.getD i default).allocate_output
        (allgatherOutputShape G ts (es.getD i default) (base + i))).ok =
        true) →
    (allgatherAllocLoop G ts es base).2.2 = none ∧
    (∀ i, i < es.length →
      Event.allocateOutput (base + i)
          (allgatherOutputShape G ts (es.getD i default) (base + i)) true ∈
        (allgatherAllocLoop G ts es base).2.1) ∧
    (∀ i, i < es.length →
      (allgatherAllocLoop G ts es base).1.getD i default =
        withAllocatedOutput G ts (es.getD i default) (base + i)) := by
  induction es with
  | nil =>
    intro base _
    refine ⟨rfl, ?_, ?_⟩ <;> intro i hi <;> simp at hi
  | cons e rest ih =>
    intro base h
    have h0 : (e.allocate_output (allgatherOutputShape G ts e base)).ok =
        true := by
      have := h 0 (by simp)
      simpa using this
    have hrest : ∀ i, i < rest.length →
        ((rest.getD i default).allocate_output
          (allgatherOutputShape G ts (rest.getD i default)
            ((base + 1) + i))).ok = true := by
      intro i hi
      have hstep := h (i + 1) (by simpa using Nat.succ_lt_succ hi)
      have harith : base + (i + 1) = (base + 1) + i := by omega
      rw [List.getD_cons_succ, harith] at hstep
      exact hstep
    obtain ⟨hnone, hev, hent⟩ := ih (base + 1) hrest
    refine ⟨?_, ?_, ?_⟩
    · simp only [allgatherAllocLoop, h0, if_true]
      exact hnone
    · intro i hi
      cases i with
      | zero =>
        simp only [allgatherAllocLoop, h0, if_true, List.getD_cons_zero,
          Nat.add_zero]
        exact List.mem_cons_self _ _
      | succ i =>
        have hi' : i < rest.length := by simpa using hi
        have harith : base + (i + 1) = (base + 1) + i := by omega
        simp only [allgatherAllocLoop, h0, if_true, List.getD_cons_succ,
          harith]
        exact List.mem_cons_of_mem _ (hev i hi')
    · intro i hi
      cases i with
      | zero =>
        simp only [allgatherAllocLoop, h0, if_true, List.getD_cons_zero,
          Nat.add_zero]
      | succ i =>
        have hi' : i < rest.length := by simpa using hi
        have harith : base + (i + 1) = (base + 1) + i := by omega
        simp only [allgatherAllocLoop, h0, if_true, List.getD_cons_succ,
          harith]
        exact hent i hi'

lemma allocLoop_first_fail (G : Nat) (ts : List Int)
    (es : List TensorTableEntry) : ∀ (base k : Nat), k < es.length →
    (∀ i, i < k →
      ((es.getD i default).allocate_output
        (allgatherOutputShape G ts (es.getD i default) (base + i))).ok =
        true) →
    ((es.getD k default).allocate_output
      (allgatherOutputShape G ts (es.getD k default) (base + k))).ok =
      false →
    (allgatherAllocLoop G ts es base).2.2 =
      some ((es.getD k default).allocate_output
        (allgatherOutputShape G ts (es.getD k default) (base + k))) ∧
    (∀ j, j < k →
      (allgatherAllocLoop G ts es base).1.getD j default =
        withAllocatedOutput G ts (es.getD j default) (base + j)) := by
  induction es with
  | nil => intro base k hk; simp at hk
  | cons e rest ih =>
    intro base k hk hok hfail
    cases k with
    | zero =>
      rw [List.getD_cons_zero, Nat.add_zero] at hfail
      refine ⟨?_, ?_⟩
      · simp [allgatherAllocLoop, hfail]
      · intro j hj; simp at hj
    | succ k =>
      have h0 : (e.allocate_output (allgatherOutputShape G ts e base)).ok =
          true := by
        have := hok 0 (by simp)
        simpa using this
      have hk' : k < rest.length := by simpa using hk
      have hok' : ∀ i, i < k →
          ((rest.getD i default).allocate_output
            (allgatherOutputShape G ts (rest.getD i default)
              ((base + 1) + i))).ok = true := by
        intro i hi
        have hstep := hok (i + 1) (by simpa using Nat.succ_lt_succ hi)
        have harith : base + (i + 1) = (base + 1) + i := by omega
        rw [List.getD_cons_succ, harith] at hstep
        exact hstep
      have hfail' : ((rest.getD k default).allocate_output
          (allgatherOutputShape G ts (rest.getD k default)
            ((base + 1) + k))).ok = false := by
        have harith : base + (k + 1) = (base + 1) + k := by omega
        rw [List.getD_cons_succ, harith] at hfail
        exact hfail
      obtain ⟨hsome, hent⟩ := ih (base + 1) k hk' hok' hfail'
      have harith : base + (k + 1) = (base + 1) + k := by omega
      refine ⟨?_, ?_⟩
      · simp only [allgatherAllocLoop, h0, if_true, List.getD_cons_succ,
          harith]
        exact hsome
      · intro j hj
        cases j with
        | zero =>
          simp only [allgatherAllocLoop, h0, if_true, List.getD_cons_zero,
            Nat.add_zero]
        | succ j =>
          have hj' : j < k := by omega
          have harith2 : base + (j + 1) = (base + 1) + j := by omega
          simp only [allgatherAllocLoop, h0, if_true, List.getD_cons_succ,
            harith2]
          exact hent j hj'

lemma allocLoop_ex_fail (G : Nat) (ts : List Int)
    (es : List TensorTableEntry) : ∀ (base : Nat),
    (∃ i, i < es.length ∧
      ((es.getD i default).allocate_output
        (allgatherOutputShape G ts (es.getD i default) (base + i))).ok =
        false) →
    ∃ k, k < es.length ∧
      ((es.getD k default).allocate_output
        (allgatherOutputShape G ts (es.getD k default) (base + k))).ok =
        false ∧
      (allgatherAllocLoop G ts es base).2.2 =
        some ((es.getD k default).allocate_output
          (allgatherOutputShape G ts (es.getD k default) (base + k))) := by
  induction es with
  | nil => intro base h; obtain ⟨i, hi, _⟩ := h; simp at hi
  | cons e rest ih =>
    intro base h
    obtain ⟨i, hi, hfail⟩ := h
    by_cases h0 : (e.allocate_output (allgatherOutputShape G ts e base)).ok
    · cases i with
      | zero =>
        rw [List.getD_cons_zero, Nat.add_zero] at hfail
        rw [h0] at hfail
        exact absurd hfail (by simp)
      | succ i =>
        have hi' : i < rest.length := by simpa using hi
        have harith : base + (i + 1) = (base + 1) + i := by omega
        rw [List.getD_cons_succ, harith] at hfail
        obtain ⟨k, hk, hkf, hsome⟩ := ih (base + 1) ⟨i, hi', hfail⟩
        refine ⟨k + 1, by simpa using Nat.succ_lt_succ hk, ?_, ?_⟩
        · have harith2 : base + (k + 1) = (base + 1) + k := by omega
          rw [List.getD_cons_succ, harith2]
          exact hkf
        · have harith2 : base + (k + 1) = (base + 1) + k := by omega
          simp only [allgatherAllocLoop, h0, if_true, List.getD_cons_succ,
            harith2]
          exact hsome
    · have h0' : (e.allocate_output (allgatherOutputShape G ts e base)).ok =
          false := by simpa using h0
      refine ⟨0, by simp, ?_, ?_⟩
      · rw [List.getD_cons_zero, Nat.add_zero]
        exact h0'
      · simp [allgatherAllocLoop, h0']

/-! ## Concrete fixtures for the spec's scenarios -/

/-- A FLOAT32 entry of the given input shape whose framework context always
allocates successfully. -/
def entryOfShape (dims : List Int) : TensorTableEntry :=
  { tensor := ⟨⟨dims⟩, DataType.FLOAT32⟩, output := none, root_rank := 0,
    allocate_output := fun _ => Status.OK }

/-- A FLOAT32 entry whose framework context refuses every allocation. -/
def entryAllocFail (dims : List Int) : TensorTableEntry :=
  { tensor := ⟨⟨dims⟩, DataType.FLOAT32⟩, output := none, root_rank := 0,
    allocate_output := fun _ => ⟨StatusType.ABORTED, "allocation failed"⟩ }

/-- The Gather scenario's single-entry batch (leading dimension 2, slice
shape `[4]`). -/
def gatherEntryC3 : List TensorTableEntry := [entryOfShape [2, 4]]

/-- The Gather scenario's negotiated response: rank extents 2, 0, 5. -/
def responseC3 : Response := ⟨[2, 0, 5], ""⟩

/-- The Reduction scenario's batch: 10-, 20- and 5-element entries of a
4-byte dtype. -/
def reduceEntries : List TensorTableEntry :=
  [entryOfShape [10], entryOfShape [20], entryOfShape [5]]

/-- A failing outcome reported by the transport backend. -/
def transportFail : Status := ⟨StatusType.UNKNOWN_ERROR, "transport failed"⟩

/-! ## Claims -/

/-- C1: In the Gather operation, for every non-empty batch and every group
size G ≥ 1, the (entry, rank) offset table computed by `Execute` satisfies:
for every rank `rc`, the offset of entry 0 at rank `rc` equals the running
rank displacement, i.e. `displcmnts[rc]`, the sum of `recvcounts[0..rc-1]`;
and for every entry `ec`, the offset of entry `ec+1` at rank `rc` equals the
offset of entry `ec` at rank `rc` plus entry `ec`'s component size at rank
`rc`. -/
theorem allgather_offset_table_recurrence (G : Nat) (tensor_sizes : List Int)
    (entries : List TensorTableEntry) (hne : entries ≠ []) (hG : 1 ≤ G)
    (rc : Nat) (hrc : rc < G) (ec : Nat) :
    entry_component_offsets G tensor_sizes entries 0 rc =
      displcmnts G tensor_sizes entries rc ∧
    displcmnts G tensor_sizes entries rc =
      Finset.sum (Finset.range rc) (recvcounts G tensor_sizes entries) ∧
    entry_component_offsets G tensor_sizes entries (ec + 1) rc =
      entry_component_offsets G tensor_sizes entries ec rc +
        entry_component_sizes G tensor_sizes entries ec rc := by
  refine ⟨?_, displcmnts_eq_sum G tensor_sizes entries rc, ?_⟩
  · rw [entry_component_offsets]
    exact rank_displacement_eq_displcmnts G tensor_sizes entries rc
  · rw [entry_component_offsets]

theorem allgather_offset_table_recurrence_witness :
    gatherEntryC3 ≠ [] ∧ 1 ≤ 3 ∧ 1 < 3 ∧
    (entry_component_offsets 3 [2, 0, 5] gatherEntryC3 0 1 =
        displcmnts 3 [2, 0, 5] gatherEntryC3 1 ∧
      displcmnts 3 [2, 0, 5] gatherEntryC3 1 =
        Finset.sum (Finset.range 1) (recvcounts 3 [2, 0, 5] gatherEntryC3) ∧
      entry_component_offsets 3 [2, 0, 5] gatherEntryC3 (0 + 1) 1 =
        entry_component_offsets 3 [2, 0, 5] gatherEntryC3 0 1 +
          entry_component_sizes 3 [2, 0, 5] gatherEntryC3 0 1) :=
  ⟨by simp [gatherEntryC3], by decide, by decide,
    allgather_offset_table_recurrence 3 [2, 0, 5] gatherEntryC3
      (by simp [gatherEntryC3]) (by decide) 1 (by decide) 0⟩

/-- C2: In the Gather operation, for every non-empty batch and per-entry-
per-rank size table: the sum over all ranks of `recvcounts[rank]` equals the
sum over all entries and ranks of the component sizes; the displacements
satisfy `displcmnts[0] = 0` and `displcmnts[rc+1] = displcmnts[rc] +
recvcounts[rc]`; and the total buffer length passed to the transport call
equals `displcmnts[G-1] + recvcounts[G-1]`, which equals the sum of all
recvcounts. -/
theorem allgather_counts_displacements_total (G : Nat)
    (tensor_sizes : List Int) (entries : List TensorTableEntry)
    (hne : entries ≠ []) (hG : 1 ≤ G) :
    Finset.sum (Finset.range G) (recvcounts G tensor_sizes entries) =
      Finset.sum (Finset.range entries.length) (fun ec =>
        Finset.sum (Finset.range G) (fun rc =>
          entry_component_sizes G tensor_sizes entries ec rc)) ∧
    displcmnts G tensor_sizes entries 0 = 0 ∧
    (∀ rc : Nat, displcmnts G tensor_sizes entries (rc + 1) =
      displcmnts G tensor_sizes entries rc +
        recvcounts G tensor_sizes entries rc) ∧
    total_size G tensor_sizes entries =
      displcmnts G tensor_sizes entries (G - 1) +
        recvcounts G tensor_sizes entries (G - 1) ∧
    total_size G tensor_sizes entries =
      Finset.sum (Finset.range G) (recvcounts G tensor_sizes entries) := by
  obtain ⟨m, rfl⟩ : ∃ m, G = m + 1 := ⟨G - 1, by omega⟩
  refine ⟨?_, rfl, fun rc => by rw [displcmnts], rfl, ?_⟩
  · calc
      Finset.sum (Finset.range (m + 1))
          (recvcounts (m + 1) tensor_sizes entries) =
        Finset.sum (Finset.range (m + 1)) (fun rc =>
          Finset.sum (Finset.range entries.length) (fun ec =>
            entry_component_sizes (m + 1) tensor_sizes entries ec rc)) :=
        Finset.sum_congr rfl (fun rc _ =>
          recvcounts_eq_sum (m + 1) tensor_sizes entries rc)
      _ = Finset.sum (Finset.range entries.length) (fun ec =>
            Finset.sum (Finset.range (m + 1)) (fun rc =>
              entry_component_sizes (m + 1) tensor_sizes entries ec rc)) :=
        Finset.sum_comm
  · rw [total_size, displcmnts_eq_sum]
    simp [Finset.sum_range_succ]

theorem allgather_counts_displacements_total_witness :
    gatherEntryC3 ≠ [] ∧ 1 ≤ 3 ∧
    (Finset.sum (Finset.range 3) (recvcounts 3 [2, 0, 5] gatherEntryC3) =
        Finset.sum (Finset.range gatherEntryC3.length) (fun ec =>
          Finset.sum (Finset.range 3) (fun rc =>
            entry_component_sizes 3 [2, 0, 5] gatherEntryC3 ec rc)) ∧
      displcmnts 3 [2, 0, 5] gatherEntryC3 0 = 0 ∧
      (∀ rc : Nat, displcmnts 3 [2, 0, 5] gatherEntryC3 (rc + 1) =
        displcmnts 3 [2, 0, 5] gatherEntryC3 rc +
          recvcounts 3 [2, 0, 5] gatherEntryC3 rc) ∧
      total_size 3 [2, 0, 5] gatherEntryC3 =
        displcmnts 3 [2, 0, 5] gatherEntryC3 2 +
          recvcounts 3 [2, 0, 5] gatherEntryC3 2 ∧
      total_size 3 [2, 0, 5] gatherEntryC3 =
        Finset.sum (Finset.range 3) (recvcounts 3 [2, 0, 5] gatherEntryC3)) :=
  ⟨by simp [gatherEntryC3], by decide,
    allgather_counts_displacements_total 3 [2, 0, 5] gatherEntryC3
      (by simp [gatherEntryC3]) (by decide)⟩

/-- C3: For a Gather of exactly 1 entry across group size 3, with per-rank
leading-dimension extents 2, 0, 5 and slice shape `[4]`, `Execute` computes
`recvcounts = [8, 0, 20]` and `displcmnts = [0, 8, 8]`, and allocates the
entry's output with shape `[7, 4]` (the transport call receives exactly
those tables). -/
theorem allgather_scenario_one_entry :
    recvcountsTable 3 [2, 0, 5] gatherEntryC3 = [8, 0, 20] ∧
    displcmntsTable 3 [2, 0, 5] gatherEntryC3 = [0, 8, 8] ∧
    ((AllgatherOp.Execute ⟨3, 0⟩ gatherEntryC3 responseC3
        Status.OK).entries.getD 0 default).output =
      some (Tensor.mk ⟨[7, 4]⟩ DataType.FLOAT32) ∧
    (AllgatherOp.Execute ⟨3, 0⟩ gatherEntryC3 responseC3 Status.OK).events =
      [Event.activityStartAll ALLOCATE_OUTPUT,
       Event.allocateOutput 0 ⟨[7, 4]⟩ true,
       Event.activityEndAll,
       Event.doAllgather [8, 0, 20] [0, 8, 8] [[0, 8, 8]] [[8, 0, 20]] 28 4
         Status.OK] := by
  decide

/-- C4: `MemcpyInFusionBuffer` copies each entry at a byte offset equal to
the sum of the byte sizes of all prior entries in batch order, sets
`buffer_len` to the sum of all entries' byte sizes, and
`MemcpyOutFusionBuffer` performs its copies at exactly the same offsets; in
the 3-entry scenario (10, 20, 5 elements, 4-byte dtype) the staged length
is 140 bytes and the offsets are 0, 40 and 120. -/
theorem allreduce_fusion_offsets (entries : List TensorTableEntry)
    (hne : entries ≠ []) :
    (∀ i, i < entries.length →
      (AllreduceOp.MemcpyInFusionBuffer entries).1.getD i (0, 0) =
        (((entries.take i).map (fun e => e.tensor.size)).sum,
          (entries.getD i default).tensor.size)) ∧
    (AllreduceOp.MemcpyInFusionBuffer entries).2 =
      (entries.map (fun e => e.tensor.size)).sum ∧
    AllreduceOp.MemcpyOutFusionBuffer entries =
      (AllreduceOp.MemcpyInFusionBuffer entries).1 ∧
    (AllreduceOp.MemcpyInFusionBuffer reduceEntries).2 = 140 ∧
    (AllreduceOp.MemcpyInFusionBuffer reduceEntries).1 =
      [(0, 40), (40, 80), (120, 20)] := by
  refine ⟨?_, ?_, ?_, by decide, by decide⟩
  · intro i hi
    have h := memcpyInLoop_getD entries 0 i hi
    simpa [AllreduceOp.MemcpyInFusionBuffer] using h
  · simpa [AllreduceOp.MemcpyInFusionBuffer] using memcpyInLoop_snd entries 0
  · exact memcpyOutLoop_eq_in entries 0

theorem allreduce_fusion_offsets_witness :
    reduceEntries ≠ [] ∧
    ((∀ i, i < reduceEntries.length →
      (AllreduceOp.MemcpyInFusionBuffer reduceEntries).1.getD i (0, 0) =
        (((reduceEntries.take i).map (fun e => e.tensor.size)).sum,
          (reduceEntries.getD i default).tensor.size)) ∧
    (AllreduceOp.MemcpyInFusionBuffer reduceEntries).2 =
      (reduceEntries.map (fun e => e.tensor.size)).sum ∧
    AllreduceOp.MemcpyOutFusionBuffer reduceEntries =
      (AllreduceOp.MemcpyInFusionBuffer reduceEntries).1 ∧
    (AllreduceOp.MemcpyInFusionBuffer reduceEntries).2 = 140 ∧
    (AllreduceOp.MemcpyInFusionBuffer reduceEntries).1 =
      [(0, 40), (40, 80), (120, 20)]) :=
  ⟨by simp [reduceEntries],
    allreduce_fusion_offsets reduceEntries (by simp [reduceEntries])⟩

/-- An upstream negotiated error message used in the Error-path witness. -/
def boomMessage : String := "negotiated boom"

/-- C5: For every single-entry batch and every Negotiated Response carrying
an error message `m`, the Error operation's `Execute` returns a
precondition-failure Status whose message equals `m`, performs no copy,
allocation or transport call (empty event trace), and leaves the batch
unchanged. -/
theorem error_op_precondition (entries : List TensorTableEntry)
    (response : Response) (hone : entries.length = 1) :
    (ErrorOp.Execute entries response).status =
      Status.PreconditionError response.error_message ∧
    (ErrorOp.Execute entries response).status.type =
      StatusType.PRECONDITION_ERROR ∧
    (ErrorOp.Execute entries response).status.reason =
      response.error_message ∧
    (ErrorOp.Execute entries response).entries = entries ∧
    (ErrorOp.Execute entries response).events = [] :=
  ⟨rfl, rfl, rfl, rfl, rfl⟩

theorem error_op_precondition_witness :
    ([entryOfShape [3]] : List TensorTableEntry).length = 1 ∧
    ((ErrorOp.Execute [entryOfShape [3]] ⟨[], boomMessage⟩).status =
      Status.PreconditionError boomMessage ∧
    (ErrorOp.Execute [entryOfShape [3]] ⟨[], boomMessage⟩).status.type =
      StatusType.PRECONDITION_ERROR ∧
    (ErrorOp.Execute [entryOfShape [3]]
        ⟨[], boomMessage⟩).status.reason = "negotiated boom" ∧
    (ErrorOp.Execute [entryOfShape [3]] ⟨[], boomMessage⟩).entries =
      [entryOfShape [3]] ∧
    (ErrorOp.Execute [entryOfShape [3]] ⟨[], boomMessage⟩).events =
      []) :=
  ⟨rfl, error_op_precondition [entryOfShape [3]] ⟨[], boomMessage⟩ rfl⟩

lemma allocStatusAt_eq (G : Nat) (ts : List Int)
    (entries : List TensorTableEntry) (ec : Nat) :
    (entries.getD ec default).allocate_output
      (allgatherOutputShape G ts (entries.getD ec default) (0 + ec)) =
    allocStatusAt G ts entries ec := by
  rw [Nat.zero_add]
  rfl

/-- C6: In the Gather operation, output allocation happens for every entry
before the transport call - on the all-allocations-succeed path the trace is
some prefix holding an allocation event for every entry followed by the
single `DoAllgather` call - and if `AllocateOutput` fails for any entry,
`Execute` returns that failure status and `DoAllgather` is never invoked
for the batch. -/
theorem allgather_alloc_before_transport (g : HorovodGlobalState)
    (entries : List TensorTableEntry) (response : Response)
    (transport_status : Status) (hne : entries ≠ []) :
    ((∀ ec, ec < entries.length →
        (allocStatusAt g.size response.tensor_sizes entries ec).ok = true) →
      ∃ pre,
        (AllgatherOp.Execute g entries response transport_status).events =
          pre ++
            [Event.doAllgather
              (recvcountsTable g.size response.tensor_sizes entries)
              (displcmntsTable g.size response.tensor_sizes entries)
              (entry_component_offsets_table g.size response.tensor_sizes
                entries)
              (entry_component_sizes_table g.size response.tensor_sizes
                entries)
              (total_size g.size response.tensor_sizes entries)
              (GetElementSize (entries.headD default).tensor.dtype)
              transport_status] ∧
        ∀ ec, ec < entries.length →
          Event.allocateOutput ec
              (allocOutputShapeAt g.size response.tensor_sizes entries ec)
              true ∈ pre) ∧
    ((∃ ec, ec < entries.length ∧
        (allocStatusAt g.size response.tensor_sizes entries ec).ok =
          false) →
      (∃ ec, ec < entries.length ∧
        (allocStatusAt g.size response.tensor_sizes entries ec).ok =
          false ∧
        (AllgatherOp.Execute g entries response transport_status).status =
          allocStatusAt g.size response.tensor_sizes entries ec) ∧
      ∀ ev ∈ (AllgatherOp.Execute g entries response
          transport_status).events, ev.isDoAllgather = false) := by
  constructor
  · intro hall
    have hall' : ∀ i, i < entries.length →
        ((entries.getD i default).allocate_output
          (allgatherOutputShape g.size response.tensor_sizes
            (entries.getD i default) (0 + i))).ok = true := by
      intro i hi
      rw [allocStatusAt_eq]
      exact hall i hi
    obtain ⟨hnone, hev, _⟩ :=
      allocLoop_all_ok g.size response.tensor_sizes entries 0 hall'
    refine ⟨Event.activityStartAll ALLOCATE_OUTPUT ::
        (allgatherAllocLoop g.size response.tensor_sizes entries 0).2.1 ++
        [Event.activityEndAll], ?_, ?_⟩
    · simp only [AllgatherOp.Execute, hnone]
      simp
    · intro ec hec
      have h := hev ec hec
      rw [Nat.zero_add] at h
      exact List.mem_cons_of_mem _ (List.mem_append_left _ h)
  · intro hex
    obtain ⟨i, hi, hfail⟩ := hex
    have hfail' : ((entries.getD i default).allocate_output
        (allgatherOutputShape g.size response.tensor_sizes
          (entries.getD i default) (0 + i))).ok = false := by
      rw [allocStatusAt_eq]
      exact hfail
    obtain ⟨k, hk, hkf, hsome⟩ :=
      allocLoop_ex_fail g.size response.tensor_sizes entries 0 ⟨i, hi, hfail'⟩
    constructor
    · refine ⟨k, hk, ?_, ?_⟩
      · rw [← allocStatusAt_eq]
        exact hkf
      · simp only [AllgatherOp.Execute, hsome]
        exact allocStatusAt_eq g.size response.tensor_sizes entries k
    · intro ev hmem
      simp only [AllgatherOp.Execute, hsome] at hmem
      rcases List.mem_cons.mp hmem with h1 | h1
      · rw [h1]
        rfl
      · obtain ⟨a, b, c, rfl⟩ :=
          allocLoop_events_shape g.size response.tensor_sizes entries 0 ev h1
        rfl

theorem allgather_alloc_before_transport_witness :
    gatherEntryC3 ≠ [] ∧
    (((∀ ec, ec < gatherEntryC3.length →
        (allocStatusAt 3 [2, 0, 5] gatherEntryC3 ec).ok = true) →
      ∃ pre,
        (AllgatherOp.Execute ⟨3, 0⟩ gatherEntryC3 responseC3
            Status.OK).events =
          pre ++
            [Event.doAllgather (recvcountsTable 3 [2, 0, 5] gatherEntryC3)
              (displcmntsTable 3 [2, 0, 5] gatherEntryC3)
              (entry_component_offsets_table 3 [2, 0, 5] gatherEntryC3)
              (entry_component_sizes_table 3 [2, 0, 5] gatherEntryC3)
              (total_size 3 [2, 0, 5] gatherEntryC3)
              (GetElementSize
                (gatherEntryC3.headD default).tensor.dtype)
              Status.OK] ∧
        ∀ ec, ec < gatherEntryC3.length →
          Event.allocateOutput ec
              (allocOutputShapeAt 3 [2, 0, 5] gatherEntryC3 ec) true ∈
            pre) ∧
    ((∃ ec, ec < gatherEntryC3.length ∧
        (allocStatusAt 3 [2, 0, 5] gatherEntryC3 ec).ok = false) →
      (∃ ec, ec < gatherEntryC3.length ∧
        (allocStatusAt 3 [2, 0, 5] gatherEntryC3 ec).ok = false ∧
        (AllgatherOp.Execute ⟨3, 0⟩ gatherEntryC3 responseC3
            Status.OK).status =
          allocStatusAt 3 [2, 0, 5] gatherEntryC3 ec) ∧
      ∀ ev ∈ (AllgatherOp.Execute ⟨3, 0⟩ gatherEntryC3 responseC3
          Status.OK).events, ev.isDoAllgather = false)) :=
  ⟨by simp [gatherEntryC3],
    allgather_alloc_before_transport ⟨3, 0⟩ gatherEntryC3 responseC3
      Status.OK (by simp [gatherEntryC3])⟩

/-- C7: For every single-entry Broadcast batch, the transport primitive is
invoked exactly once, with the entry's input tensor data when the calling
rank equals the entry's root rank and with the entry's output tensor data
otherwise, together with the entry's element count, dtype and root rank;
`Execute` returns OK, and `Enabled` returns true for every tuning state,
batch and response. -/
theorem broadcast_buffer_selection (g : HorovodGlobalState)
    (entries : List TensorTableEntry) (response : Response)
    (transport_status : Status) (hone : entries.length = 1) :
    (g.rank = (entries.headD default).root_rank →
      (BroadcastOp.Execute g entries response transport_status).events =
        [Event.doBroadcast DataRef.tensorData
          (entries.headD default).tensor.shape.num_elements
          (entries.headD default).tensor.dtype
          (entries.headD default).root_rank transport_status]) ∧
    (g.rank ≠ (entries.headD default).root_rank →
      (BroadcastOp.Execute g entries response transport_status).events =
        [Event.doBroadcast DataRef.outputData
          (entries.headD default).tensor.shape.num_elements
          (entries.headD default).tensor.dtype
          (entries.headD default).root_rank transport_status]) ∧
    (BroadcastOp.Execute g entries response transport_status).status =
      Status.OK ∧
    (∀ pm es rs, BroadcastOp.Enabled pm es rs = true) := by
  refine ⟨?_, ?_, rfl, fun _ _ _ => rfl⟩
  · intro h
    simp [BroadcastOp.Execute, h]
  · intro h
    have h' : ¬g.rank = (entries.head?.getD default).root_rank := by
      simpa using h
    simp [BroadcastOp.Execute, h']

theorem broadcast_buffer_selection_witness :
    ([entryOfShape [3]] : List TensorTableEntry).length = 1 ∧
    ((((⟨2, 0⟩ : HorovodGlobalState)).rank =
        (([entryOfShape [3]] : List TensorTableEntry).headD
          default).root_rank →
      (BroadcastOp.Execute ⟨2, 0⟩ [entryOfShape [3]] ⟨[], ""⟩
          Status.OK).events =
        [Event.doBroadcast DataRef.tensorData
          (([entryOfShape [3]] : List TensorTableEntry).headD
            default).tensor.shape.num_elements
          (([entryOfShape [3]] : List TensorTableEntry).headD
            default).tensor.dtype
          (([entryOfShape [3]] : List TensorTableEntry).headD
            default).root_rank Status.OK]) ∧
    (((⟨2, 0⟩ : HorovodGlobalState)).rank ≠
        (([entryOfShape [3]] : List TensorTableEntry).headD
          default).root_rank →
      (BroadcastOp.Execute ⟨2, 0⟩ [entryOfShape [3]] ⟨[], ""⟩
          Status.OK).events =
        [Event.doBroadcast DataRef.outputData
          (([entryOfShape [3]] : List TensorTableEntry).headD
            default).tensor.shape.num_elements
          (([entryOfShape [3]] : List TensorTableEntry).headD
            default).tensor.dtype
          (([entryOfShape [3]] : List TensorTableEntry).headD
            default).root_rank Status.OK]) ∧
    (BroadcastOp.Execute ⟨2, 0⟩ [entryOfShape [3]] ⟨[], ""⟩
        Status.OK).status = Status.OK ∧
    (∀ pm es rs, BroadcastOp.Enabled pm es rs = true)) :=
  ⟨rfl, broadcast_buffer_selection ⟨2, 0⟩ [entryOfShape [3]] ⟨[], ""⟩
    Status.OK rfl⟩

/-- C8 counterexample: the claim "Execute returns success only when the
transport step succeeded" is false at a concrete input - with a transport
backend reporting a failure, both Broadcast's and Gather's `Execute`
still return OK (the source invokes `DoBroadcast` / `DoAllgather` as a
statement and unconditionally returns `Status::OK()`). -/
theorem transport_failure_not_surfaced :
    transportFail.ok = false ∧
    (BroadcastOp.Execute ⟨2, 0⟩ [entryOfShape [3]] ⟨[], ""⟩
        transportFail).status = Status.OK ∧
    (BroadcastOp.Execute ⟨2, 0⟩ [entryOfShape [3]] ⟨[], ""⟩
        transportFail).events =
      [Event.doBroadcast DataRef.tensorData 3 DataType.FLOAT32 0
        transportFail] ∧
    (AllgatherOp.Execute ⟨1, 0⟩ [entryOfShape [2]] ⟨[2], ""⟩
        transportFail).status = Status.OK := by
  decide

/-- C8 amended: the returned Status of a Broadcast or Gather `Execute` is
independent of the transport primitive's outcome - Broadcast's `Execute`
always returns OK, and Gather's `Execute` returns OK whenever every output
allocation succeeded, whatever status the transport backend reports. -/
theorem transport_outcome_ignored (g : HorovodGlobalState)
    (entries : List TensorTableEntry) (response : Response)
    (t t' : Status) :
    (BroadcastOp.Execute g entries response t).status = Status.OK ∧
    ((∀ ec, ec < entries.length →
        (allocStatusAt g.size response.tensor_sizes entries ec).ok = true) →
      (AllgatherOp.Execute g entries response t).status = Status.OK) ∧
    (AllgatherOp.Execute g entries response t).status =
      (AllgatherOp.Execute g entries response t').status := by
  refine ⟨rfl, ?_, ?_⟩
  · intro hall
    have hall' : ∀ i, i < entries.length →
        ((entries.getD i default).allocate_output
          (allgatherOutputShape g.size response.tensor_sizes
            (entries.getD i default) (0 + i))).ok = true := by
      intro i hi
      rw [allocStatusAt_eq]
      exact hall i hi
    obtain ⟨hnone, _, _⟩ :=
      allocLoop_all_ok g.size response.tensor_sizes entries 0 hall'
    simp only [AllgatherOp.Execute, hnone]
  · cases hcase :
        (allgatherAllocLoop g.size response.tensor_sizes entries 0).2.2 with
    | none => simp only [AllgatherOp.Execute, hcase]
    | some st => simp only [AllgatherOp.Execute, hcase]

theorem transport_outcome_ignored_witness :
    (BroadcastOp.Execute ⟨1, 0⟩ [entryOfShape [2]] ⟨[2], ""⟩
        transportFail).status = Status.OK ∧
    (AllgatherOp.Execute ⟨1, 0⟩ [entryOfShape [2]] ⟨[2], ""⟩
        transportFail).status = Status.OK :=
  ⟨(transport_outcome_ignored ⟨1, 0⟩ [entryOfShape [2]] ⟨[2], ""⟩
      transportFail Status.OK).1,
    (transport_outcome_ignored ⟨1, 0⟩ [entryOfShape [2]] ⟨[2], ""⟩
      transportFail Status.OK).2.1 (by decide)⟩

/-- C9: In the Gather layout computation, a leading-dimension extent of zero
for some `(e0, r0)` pair contributes a component size of 0, and every
recvcount, every displacement, and every `(entry, rank)` offset is
identical to what it would be with that component absent - zero
contributions never shift neighboring offsets (layout math never fails:
all quantities stay well defined). -/
theorem allgather_zero_extent_component (G : Nat) (tensor_sizes : List Int)
    (entries : List TensorTableEntry) (e0 r0 : Nat)
    (he : e0 < entries.length) (hr : r0 < G)
    (hz : tensor_sizes.getD (e0 * G + r0) 0 = 0) :
    entry_component_sizes G tensor_sizes entries e0 r0 = 0 ∧
    (∀ rc, recvcounts G tensor_sizes entries rc =
      recvcountsAbsent G tensor_sizes entries e0 r0 rc) ∧
    (∀ rc, displcmnts G tensor_sizes entries rc =
      displcmntsAbsent G tensor_sizes entries e0 r0 rc) ∧
    (∀ ec rc, entry_component_offsets G tensor_sizes entries ec rc =
      entry_component_offsetsAbsent G tensor_sizes entries e0 r0 ec rc) := by
  have hcomp0 : entry_component_sizes G tensor_sizes entries e0 r0 = 0 := by
    rw [entry_component_sizes, hz, zero_mul]
  have hcomp : ∀ ec rc, entry_component_sizes G tensor_sizes entries ec rc =
      entry_component_sizesAbsent G tensor_sizes entries e0 r0 ec rc := by
    intro ec rc
    rw [entry_component_sizesAbsent]
    by_cases h : ec = e0 ∧ rc = r0
    · rw [if_pos h, h.1, h.2, hcomp0]
    · rw [if_neg h]
  have hrecv : ∀ rc, recvcounts G tensor_sizes entries rc =
      recvcountsAbsent G tensor_sizes entries e0 r0 rc := by
    intro rc
    rw [recvcounts, recvcountsAfter_eq_recvFrom, recvcountsAbsent]
    exact recvFrom_congr hcomp entries.length rc
  refine ⟨hcomp0, hrecv, ?_, ?_⟩
  · intro rc
    rw [displcmnts_eq_rdFrom, displcmntsAbsent]
    exact rdFrom_congr hrecv rc
  · intro ec rc
    rw [entry_component_offsets_eq_offsetsFrom,
      entry_component_offsetsAbsent]
    exact offsetsFrom_congr hcomp (rdFrom_congr hrecv) ec rc

theorem allgather_zero_extent_component_witness :
    (0 : Nat) < ([entryOfShape [1, 3], entryOfShape [2, 3]] :
      List TensorTableEntry).length ∧
    (1 : Nat) < 2 ∧
    ([5, 0, 7, 9] : List Int).getD (0 * 2 + 1) 0 = 0 ∧
    (entry_component_sizes 2 [5, 0, 7, 9]
        [entryOfShape [1, 3], entryOfShape [2, 3]] 0 1 = 0 ∧
    (∀ rc, recvcounts 2 [5, 0, 7, 9]
        [entryOfShape [1, 3], entryOfShape [2, 3]] rc =
      recvcountsAbsent 2 [5, 0, 7, 9]
        [entryOfShape [1, 3], entryOfShape [2, 3]] 0 1 rc) ∧
    (∀ rc, displcmnts 2 [5, 0, 7, 9]
        [entryOfShape [1, 3], entryOfShape [2, 3]] rc =
      displcmntsAbsent 2 [5, 0, 7, 9]
        [entryOfShape [1, 3], entryOfShape [2, 3]] 0 1 rc) ∧
    (∀ ec rc, entry_component_offsets 2 [5, 0, 7, 9]
        [entryOfShape [1, 3], entryOfShape [2, 3]] ec rc =
      entry_component_offsetsAbsent 2 [5, 0, 7, 9]
        [entryOfShape [1, 3], entryOfShape [2, 3]] 0 1 ec rc)) :=
  ⟨by decide, by decide, by decide,
    allgather_zero_extent_component 2 [5, 0, 7, 9]
      [entryOfShape [1, 3], entryOfShape [2, 3]] 0 1 (by decide) (by decide)
      (by decide)⟩

/-- C10: When `AllocateOutput` fails for the k-th entry of a Gather batch
with k > 0, the outputs already allocated for entries 0..k-1 remain
allocated (the batch's output state is partially mutated despite the
whole-batch failure), `Execute` returns the k-th entry's allocation
failure, and the ALLOCATE_OUTPUT timeline activity opened by
`ActivityStartAll` is not closed by `ActivityEndAll` before the failure
status is returned. -/
theorem allgather_leftover_alloc_on_failure (g : HorovodGlobalState)
    (entries : List TensorTableEntry) (response : Response)
    (transport_status : Status) (k : Nat) (hk : k < entries.length)
    (hkpos : 0 < k)
    (hok : ∀ i, i < k →
      (allocStatusAt g.size response.tensor_sizes entries i).ok = true)
    (hfail : (allocStatusAt g.size response.tensor_sizes entries k).ok =
      false) :
    (∀ j, j < k →
      ((AllgatherOp.Execute g entries response
          transport_status).entries.getD j default).output =
        some (Tensor.mk
          (allocOutputShapeAt g.size response.tensor_sizes entries j)
          ((entries.getD j default).tensor.dtype))) ∧
    (AllgatherOp.Execute g entries response transport_status).status =
      allocStatusAt g.size response.tensor_sizes entries k ∧
    Event.activityStartAll ALLOCATE_OUTPUT ∈
      (AllgatherOp.Execute g entries response transport_status).events ∧
    Event.activityEndAll ∉
      (AllgatherOp.Execute g entries response transport_status).events := by
  have hok' : ∀ i, i < k →
      ((entries.getD i default).allocate_output
        (allgatherOutputShape g.size response.tensor_sizes
          (entries.getD i default) (0 + i))).ok = true := by
    intro i hi
    rw [allocStatusAt_eq]
    exact hok i hi
  have hfail' : ((entries.getD k default).allocate_output
      (allgatherOutputShape g.size response.tensor_sizes
        (entries.getD k default) (0 + k))).ok = false := by
    rw [allocStatusAt_eq]
    exact hfail
  obtain ⟨hsome, hent⟩ :=
    allocLoop_first_fail g.size response.tensor_sizes entries 0 k hk hok'
      hfail'
  rw [allocStatusAt_eq] at hsome
  refine ⟨?_, ?_, ?_, ?_⟩
  · intro j hj
    have h := hent j hj
    rw [Nat.zero_add] at h
    simp only [AllgatherOp.Execute, hsome]
    rw [h]
    rfl
  · simp only [AllgatherOp.Execute, hsome]
  · simp only [AllgatherOp.Execute, hsome]
    exact List.mem_cons_self _ _
  · intro hmem
    simp only [AllgatherOp.Execute, hsome] at hmem
    rcases List.mem_cons.mp hmem with h1 | h1
    · exact absurd h1 (by simp)
    · obtain ⟨a, b, c, habc⟩ :=
        allocLoop_events_shape g.size response.tensor_sizes entries 0
          Event.activityEndAll h1
      exact absurd habc (by simp)

/-- A two-entry batch whose second entry's framework context refuses the
allocation. -/
def failBatch : List TensorTableEntry :=
  [entryOfShape [3], entryAllocFail [4]]

/-- Response for `failBatch` at group size 1. -/
def failResponse : Response := ⟨[3, 4], ""⟩

theorem allgather_leftover_alloc_on_failure_witness :
    (1 : Nat) < failBatch.length ∧ (0 : Nat) < 1 ∧
    (∀ i, i < 1 →
      (allocStatusAt 1 failResponse.tensor_sizes failBatch i).ok = true) ∧
    (allocStatusAt 1 failResponse.tensor_sizes failBatch 1).ok = false ∧
    ((∀ j, j < 1 →
      ((AllgatherOp.Execute ⟨1, 0⟩ failBatch failResponse
          Status.OK).entries.getD j default).output =
        some (Tensor.mk
          (allocOutputShapeAt 1 failResponse.tensor_sizes failBatch j)
          ((failBatch.getD j default).tensor.dtype))) ∧
    (AllgatherOp.Execute ⟨1, 0⟩ failBatch failResponse Status.OK).status =
      allocStatusAt 1 failResponse.tensor_sizes failBatch 1 ∧
    Event.activityStartAll ALLOCATE_OUTPUT ∈
      (AllgatherOp.Execute ⟨1, 0⟩ failBatch failResponse Status.OK).events ∧
    Event.activityEndAll ∉
      (AllgatherOp.Execute ⟨1, 0⟩ failBatch failResponse
        Status.OK).events) :=
  ⟨by decide, by decide, by decide, by decide,
    allgather_leftover_alloc_on_failure ⟨1, 0⟩ failBatch failResponse
      Status.OK 1 (by decide) (by decide) (by decide) (by decide)⟩
